import Mathlib

/-!
Shallow embedding of the keyboard-timing capture programs
(src/c/terminal_windows.c, src/c/gui_windows.c, src/c/gui_macos.m and the
CGEventTap variant terminal_macos.c) for checking the natural-language
specification.  Each platform variant gets its own namespace; the
definitions are translated from the C/Objective-C source.

Conventions of the embedding:
* The fixed-size global arrays `events[MAX_EVENTS]` become `List KeyEvent`
  values (acceptance order); `event_count` is the list length.
* C doubles that are only produced, stored and printed with `%.3f` are
  represented as integers counting thousandths of a millisecond; `render3`
  is the `%.3f` rendering of such a value.
* External platform calls (`QueryPerformanceCounter`, `ToUnicode`,
  `GetKeyState` / `GetAsyncKeyState`, NSEvent / CGEvent accessors) are
  inputs of the embedded functions: the clock reading arrives as a
  parameter, the `ToUnicode` character probe as an `Option Nat`
  (the translated UTF-16 unit when the call returns exactly one unit),
  and the queried modifier-key level state as a record of Booleans.
* The control structure of the stop path (signal handlers, the window
  procedures' stop branches and the main loops) is embedded as lists of
  atomic actions, translated statement by statement from the handler
  bodies.
-/

/-- Buffer capacity, `#define MAX_EVENTS 100000` (all four variants). -/
def MAX_EVENTS : Nat := 100000

/-- One captured record, struct `KeyEvent` of the C sources.  Timestamps are
in thousandths of a millisecond (the sources store doubles and print them
with `%.3f`). -/
structure KeyEvent where
  seq : Nat
  timestamp_ms : Int
  event_timestamp_ms : Int
  event_type : String
  keycode : Int
  scancode : Nat
  character : String
  modifiers : String
  is_repeat : Nat
deriving DecidableEq, Repr

/-- Atomic actions of the stop path, used to embed the signal/console
handlers, the stop branches of the event callbacks, and the main loops. -/
inductive StopAction where
  | set_stop_flag
  | post_termination
  | flush
  | exit_process
  | record_action
deriving DecidableEq, Repr, BEq

/-- True when a handler body does nothing but request loop termination
(setting the stop flag or posting a termination/quit event): the behaviour
the specification demands of process-interrupt handlers. -/
def requests_termination_only (l : List StopAction) : Bool :=
  l.all fun a => a == StopAction.set_stop_flag || a == StopAction.post_termination

/-- Decimal digit character, `'0' + d`. -/
def digitChar (d : Nat) : Char := Char.ofNat (48 + d)

/-- Lower-case hexadecimal digit character. -/
def hexChar (d : Nat) : Char :=
  if d < 10 then Char.ofNat (48 + d) else Char.ofNat (87 + d)

/-- Digits of `n` in base 10, most significant first, prepended to `acc`;
`fuel ≥ n` suffices for the recursion to finish. -/
def decAux : Nat → Nat → List Char → List Char
  | 0, _, acc => acc
  | fuel + 1, n, acc =>
    if n = 0 then acc else decAux fuel (n / 10) (digitChar (n % 10) :: acc)

/-- `%d` rendering of a natural number. -/
def decRepr (n : Nat) : String :=
  if n = 0 then "0" else String.mk (decAux n n [])

/-- Like `decAux` for base 16 (lower case). -/
def hexAux : Nat → Nat → List Char → List Char
  | 0, _, acc => acc
  | fuel + 1, n, acc =>
    if n = 0 then acc else hexAux fuel (n / 16) (hexChar (n % 16) :: acc)

/-- `%x` rendering of a natural number. -/
def hexRepr (n : Nat) : String :=
  if n = 0 then "0" else String.mk (hexAux n n [])

/-- `%02x` rendering: lower-case hex, zero-padded to width 2. -/
def hex02 (n : Nat) : String :=
  if n < 16 then "0" ++ hexRepr n else hexRepr n

/-- `%d` rendering of a C `int`. -/
def intRepr (i : Int) : String :=
  if i < 0 then "-" ++ decRepr i.natAbs else decRepr i.natAbs

/-- The three fractional digits of a `%.3f` rendering (`n < 1000`). -/
def frac3 (n : Nat) : String :=
  if n < 10 then "00" ++ decRepr n
  else if n < 100 then "0" ++ decRepr n
  else decRepr n

/-- `%.3f` rendering of a timestamp held as thousandths of a millisecond. -/
def render3 (x : Int) : String :=
  (if x < 0 then "-" else "") ++ decRepr (x.natAbs / 1000) ++ "." ++
    frac3 (x.natAbs % 1000)

/-- `strncpy` into a buffer of `n + 1` bytes: keep the first `n` characters. -/
def strtake (n : Nat) (s : String) : String := String.mk (s.data.take n)

/-- Linear lookup in an association list; embeds the C `switch` statements
and static designated-initializer tables of the key-name resolvers. -/
def tableLookup {α : Type} [DecidableEq α] : List (α × String) → α → Option String
  | [], _ => none
  | (k, v) :: rest, key => if key = k then some v else tableLookup rest key

/-- Number of commas in a string. -/
def ccount (s : String) : Nat := s.data.count ','

/-- Split a character list at every comma; the comma-separated fields of a
CSV line. -/
def splitOnComma : List Char → List (List Char)
  | [] => [[]]
  | c :: rest =>
    match splitOnComma rest with
    | [] => [[]]
    | f :: fs => if c = ',' then [] :: f :: fs else (c :: f) :: fs

/-- Session metadata written as the five `# key=value` comment lines; the
values come from platform queries outside the embedding. -/
structure SessionMetadata where
  platform : String
  mode : String
  clock_source : String
  start_time_utc : String

/-- The CSV header line (identical literal in all four `write_csv`s). -/
def csv_header : String :=
  "seq,timestamp_ms,event_timestamp_ms,event_type,keycode,scancode,character,modifiers,is_repeat"

/-- One data row of `write_csv`:
`fprintf(f, "%d,%.3f,%.3f,%s,%d,%d,%s,%s,%d\n", ...)`. -/
def csv_row (e : KeyEvent) : String :=
  decRepr e.seq ++ "," ++ render3 e.timestamp_ms ++ "," ++
    render3 e.event_timestamp_ms ++ "," ++ e.event_type ++ "," ++
    intRepr e.keycode ++ "," ++ decRepr e.scancode ++ "," ++
    e.character ++ "," ++ e.modifiers ++ "," ++ decRepr e.is_repeat

/-- The lines of the file produced by `write_csv` (each `fprintf` of the
source ends in a single trailing newline): five metadata comment lines, the
header, then one row per buffered record in acceptance order. -/
def write_csv_lines (md : SessionMetadata) (events : List KeyEvent) :
    List String :=
  ["# platform=" ++ md.platform,
   "# language=c",
   "# mode=" ++ md.mode,
   "# clock_source=" ++ md.clock_source,
   "# start_time_utc=" ++ md.start_time_utc] ++
  [csv_header] ++ events.map csv_row

/-- Level-reported modifier state on Windows: the `GetKeyState` /
`GetAsyncKeyState` high bit for the four modifier keys.  The `win` field is
part of the queried machine state; whether a variant reads it is visible in
its `build_modifier_string`. -/
structure WinKeyState where
  shift : Bool
  control : Bool
  menu : Bool
  win : Bool
deriving DecidableEq

/-- Level-reported modifier bits on macOS (`NSEventModifierFlags` /
`CGEventFlags`): shift, control, option and command mask bits. -/
structure ModifierFlags where
  shift : Bool
  control : Bool
  optionKey : Bool
  command : Bool
deriving DecidableEq

/-- Modelled from the spec: "`modifiers`: canonical string built by
concatenating, in fixed order {shift, ctrl, alt, platform-meta(cmd/win)},
each currently-held modifier name joined by `+`; literal `"none"` when
empty."  `held` pairs each name (in the fixed order) with whether its key
is held; used to compare the source's builders against the spec's words. -/
def modifiers_spec (held : List (Bool × String)) : String :=
  let names := (held.filter fun p => p.1).map fun p => p.2
  if names.isEmpty then "none" else String.intercalate "+" names

/-- A record whose variable-width string fields contain no comma (the
numeric fields never do); under this condition its CSV row has exactly
nine comma-separated fields. -/
def record_comma_free (e : KeyEvent) : Prop :=
  ',' ∉ e.event_type.data ∧ ',' ∉ e.character.data ∧ ',' ∉ e.modifiers.data

/-- `event_type_str[4]`, the test `record_key_event` uses to recognise
`"key_down"` (its fifth byte is `'d'`; for `"key_up"` it is `'p'`). -/
def e_type_char4 (s : String) : Char := s.data.getD 4 (Char.ofNat 0)

/-- A dummy record used to instantiate witnesses. -/
def dummyEvent : KeyEvent :=
  { seq := 1, timestamp_ms := 0, event_timestamp_ms := 0,
    event_type := "key_down", keycode := 0, scancode := 0,
    character := "a", modifiers := "none", is_repeat := 0 }

namespace TerminalWindows

/-- `build_modifier_string` of terminal_windows.c: queries
`GetAsyncKeyState` for `VK_SHIFT`, `VK_CONTROL` and `VK_MENU` only, joining
the held names with `+`; `"none"` when none of the three is down.  (The
64-byte buffer is never exceeded: the longest result is 14 characters.) -/
def build_modifier_string (ks : WinKeyState) : String :=
  let buf := ""
  let first := true
  let (buf, first) := if ks.shift then (buf ++ "shift", false) else (buf, first)
  let (buf, first) :=
    if ks.control then ((if first then buf else buf ++ "+") ++ "ctrl", false)
    else (buf, first)
  let (buf, first) :=
    if ks.menu then ((if first then buf else buf ++ "+") ++ "alt", false)
    else (buf, first)
  if first then "none" else buf

/-- The named-key `switch` of `vk_to_char` in terminal_windows.c, with the
numeric values of the `VK_` constants. -/
def vk_named : List (Nat × String) :=
  [(0x0D, "return"), (0x09, "tab"), (0x20, "space"), (0x08, "backspace"),
   (0x1B, "escape"), (0xA0, "shift_l"), (0xA1, "shift_r"),
   (0xA2, "ctrl_l"), (0xA3, "ctrl_r"), (0xA4, "alt_l"), (0xA5, "alt_r"),
   (0x5B, "win_l"), (0x5C, "win_r"), (0x14, "capslock"),
   (0x2E, "delete"), (0x2D, "insert"), (0x24, "home"), (0x23, "end"),
   (0x21, "pageup"), (0x22, "pagedown"),
   (0x25, "left"), (0x27, "right"), (0x26, "up"), (0x28, "down")]

/-- What `vk_to_char` returns when the `ToUnicode` probe did not yield a
printable ASCII character: the named-key table, else
`snprintf(buf, ..., "vk_0x%02lx", vk)`. -/
def vk_fallback (vk : Nat) : String :=
  match tableLookup vk_named vk with
  | some s => s
  | none => "vk_0x" ++ hex02 vk

/-- `vk_to_char` of terminal_windows.c.  `probe` is the result of the
`ToUnicode` call: `some w` when it returned exactly one UTF-16 unit `w`
under the current layout and keyboard state, `none` otherwise.  The source
accepts the probe only when `32 <= w < 127`. -/
def vk_to_char (probe : Option Nat) (vk : Nat) : String :=
  match probe with
  | some w =>
    if 32 ≤ w ∧ w < 127 then String.mk [Char.ofNat w] else vk_fallback vk
  | none => vk_fallback vk

/-- The `wParam` message id as far as `keyboard_hook` discriminates it. -/
inductive WMessage where
  | keydown
  | syskeydown
  | keyup
  | syskeyup
  | other
deriving DecidableEq

/-- The fields of the `KBDLLHOOKSTRUCT` that `keyboard_hook` reads;
`time` is the tick-count message time in milliseconds. -/
structure KBDLLHOOKSTRUCT where
  vkCode : Nat
  scanCode : Nat
  flags : Nat
  time : Nat
deriving DecidableEq

/-- `#define LLKHF_UP 0x80` (bit 7 of the hook flags). -/
def LLKHF_UP : Nat := 0x80

/-- The repeat-flag expression of the `WM_KEYDOWN` branch of
`keyboard_hook`: `(kb->flags & LLKHF_UP) ? 0 : 0`. -/
def hook_is_repeat (flags : Nat) : Nat :=
  if flags &&& LLKHF_UP ≠ 0 then 0 else 0

/-- `keyboard_hook` of terminal_windows.c, acting on the global `events`
array (the hook's other effect, `CallNextHookEx`, returns the event to the
system and is outside the buffer state).  `ts` is the
`QueryPerformanceCounter` reading already converted by `qpc_to_ms`, `ks`
the `GetAsyncKeyState` level state, `probe` the `ToUnicode` result. -/
def keyboard_hook (st : List KeyEvent) (nCode : Int) (wParam : WMessage)
    (kb : KBDLLHOOKSTRUCT) (probe : Option Nat) (ks : WinKeyState)
    (ts : Int) : List KeyEvent :=
  if nCode < 0 ∨ MAX_EVENTS ≤ st.length then st
  else
    let push (event_type_str : String) (is_rep : Nat) : List KeyEvent :=
      st ++ [{ seq := st.length + 1,
               timestamp_ms := ts,
               event_timestamp_ms := (kb.time : Int) * 1000,
               event_type := event_type_str,
               keycode := (kb.vkCode : Int),
               scancode := kb.scanCode,
               character := strtake 15 (vk_to_char probe kb.vkCode),
               modifiers := build_modifier_string ks,
               is_repeat := is_rep }]
    match wParam with
    | .keydown => push "key_down" (hook_is_repeat kb.flags)
    | .syskeydown => push "key_down" (hook_is_repeat kb.flags)
    | .keyup => push "key_up" 0
    | .syskeyup => push "key_up" 0
    | .other => st

/-- One delivery to the hook: the hook arguments plus the external
readings made during the call. -/
structure HookInput where
  nCode : Int
  wParam : WMessage
  kb : KBDLLHOOKSTRUCT
  probe : Option Nat
  ks : WinKeyState
  ts : Int

/-- The buffer after a session that delivered `inputs` to the hook in
order, starting from the empty global array. -/
def process (inputs : List HookInput) : List KeyEvent :=
  inputs.foldl
    (fun st i => keyboard_hook st i.nCode i.wParam i.kb i.probe i.ks i.ts) []

/-- Body of `console_handler` for `CTRL_C_EVENT` / `CTRL_CLOSE_EVENT`:
`running = 0; PostThreadMessage(..., WM_QUIT, 0, 0);`. -/
def console_handler_actions : List StopAction :=
  [StopAction.set_stop_flag, StopAction.post_termination]

/-- Shape of `main`: the `GetMessage` loop dispatches deliveries (each one
a hook invocation that at most records), and only after the loop has
returned does `write_csv` run, once. -/
def session_trace (n : Nat) : List StopAction :=
  List.replicate n StopAction.record_action ++ [StopAction.flush]

end TerminalWindows

namespace GuiWindows

/-- `build_modifier_string` of gui_windows.c: identical logic to the
terminal variant but querying `GetKeyState`; again only `VK_SHIFT`,
`VK_CONTROL` and `VK_MENU` are consulted. -/
def build_modifier_string (ks : WinKeyState) : String :=
  let buf := ""
  let first := true
  let (buf, first) := if ks.shift then (buf ++ "shift", false) else (buf, first)
  let (buf, first) :=
    if ks.control then ((if first then buf else buf ++ "+") ++ "ctrl", false)
    else (buf, first)
  let (buf, first) :=
    if ks.menu then ((if first then buf else buf ++ "+") ++ "alt", false)
    else (buf, first)
  if first then "none" else buf

/-- The named-key `switch` of `vk_to_char` in gui_windows.c (shorter than
the terminal variant's: no win, insert, home, end, page keys). -/
def vk_named : List (Nat × String) :=
  [(0x0D, "return"), (0x09, "tab"), (0x20, "space"), (0x08, "backspace"),
   (0x1B, "escape"), (0xA0, "shift_l"), (0xA1, "shift_r"),
   (0xA2, "ctrl_l"), (0xA3, "ctrl_r"), (0xA4, "alt_l"), (0xA5, "alt_r"),
   (0x14, "capslock"), (0x2E, "delete"),
   (0x25, "left"), (0x27, "right"), (0x26, "up"), (0x28, "down")]

/-- Fallback of `vk_to_char` in gui_windows.c. -/
def vk_fallback (vk : Nat) : String :=
  match tableLookup vk_named vk with
  | some s => s
  | none => "vk_0x" ++ hex02 vk

/-- `vk_to_char` of gui_windows.c. -/
def vk_to_char (probe : Option Nat) (vk : Nat) : String :=
  match probe with
  | some w =>
    if 32 ≤ w ∧ w < 127 then String.mk [Char.ofNat w] else vk_fallback vk
  | none => vk_fallback vk

/-- `record_key_event` of gui_windows.c.  `lParam` is the message lParam
(scan code in bits 16..23, previous-key-state in bit 30), `mt` the
`GetMessageTime()` tick value in milliseconds. -/
def record_key_event (st : List KeyEvent) (vk : Nat) (lParam : Nat)
    (event_type_str : String) (probe : Option Nat) (ks : WinKeyState)
    (ts : Int) (mt : Nat) : List KeyEvent :=
  if MAX_EVENTS ≤ st.length then st
  else
    let scancode := (lParam >>> 16) &&& 0xFF
    let is_rep :=
      if e_type_char4 event_type_str = 'd' then
        (if lParam &&& (1 <<< 30) ≠ 0 then 1 else 0)
      else 0
    st ++ [{ seq := st.length + 1,
             timestamp_ms := ts,
             event_timestamp_ms := (mt : Int) * 1000,
             event_type := event_type_str,
             keycode := (vk : Int),
             scancode := scancode,
             character := strtake 15 (vk_to_char probe vk),
             modifiers := build_modifier_string ks,
             is_repeat := is_rep }]

/-- Stop branch of `wnd_proc` for `WM_KEYDOWN` with `wParam == VK_ESCAPE`:
`write_csv(); PostQuitMessage(0);` — executed inside the window
procedure, before the message loop has returned. -/
def escape_actions : List StopAction := [StopAction.flush, StopAction.post_termination]

/-- `WM_DESTROY` branch of `wnd_proc`: `write_csv(); PostQuitMessage(0);`
— likewise executed inside the window procedure. -/
def wm_destroy_actions : List StopAction := [StopAction.flush, StopAction.post_termination]

end GuiWindows

namespace GuiMacos

/-- `build_modifier_string` of gui_macos.m over the `NSEventModifierFlags`
bits shift / control / option / command. -/
def build_modifier_string (flags : ModifierFlags) : String :=
  let buf := ""
  let first := true
  let (buf, first) :=
    if flags.shift then (buf ++ "shift", false) else (buf, first)
  let (buf, first) :=
    if flags.control then ((if first then buf else buf ++ "+") ++ "ctrl", false)
    else (buf, first)
  let (buf, first) :=
    if flags.optionKey then ((if first then buf else buf ++ "+") ++ "alt", false)
    else (buf, first)
  let (buf, first) :=
    if flags.command then ((if first then buf else buf ++ "+") ++ "cmd", false)
    else (buf, first)
  if first then "none" else buf

/-- The designated-initializer table of `keycode_to_char` in gui_macos.m
(indices below 128). -/
def keycode_map : List (Nat × String) :=
  [(0x00, "a"), (0x01, "s"), (0x02, "d"), (0x03, "f"),
   (0x04, "h"), (0x05, "g"), (0x06, "z"), (0x07, "x"),
   (0x08, "c"), (0x09, "v"), (0x0B, "b"), (0x0C, "q"),
   (0x0D, "w"), (0x0E, "e"), (0x0F, "r"), (0x10, "y"),
   (0x11, "t"), (0x12, "1"), (0x13, "2"), (0x14, "3"),
   (0x15, "4"), (0x16, "6"), (0x17, "5"), (0x18, "9"),
   (0x19, "7"), (0x1A, "8"), (0x1B, "0"), (0x1C, "o"),
   (0x1D, "u"), (0x1E, "i"), (0x1F, "p"), (0x20, "l"),
   (0x21, "j"), (0x22, "k"), (0x23, "n"), (0x24, "return"),
   (0x26, "m"), (0x30, "tab"), (0x31, "space"),
   (0x33, "backspace"), (0x35, "escape")]

/-- `keycode_to_char` of gui_macos.m: the static table for keycodes below
128, otherwise `snprintf(buf, ..., "0x%02x", keycode)`. -/
def keycode_to_char (keycode : Nat) : String :=
  if keycode < 128 then
    match tableLookup keycode_map keycode with
    | some s => s
    | none => "0x" ++ hex02 keycode
  else "0x" ++ hex02 keycode

/-- The NSEvent fields the recorders read; `timestamp_ms` is
`[nsEvent timestamp] * 1000.0` in thousandths of a millisecond. -/
structure NSEvent where
  keyCode : Nat
  modifierFlags : ModifierFlags
  isARepeat : Bool
  timestamp_ms : Int

/-- The mutable globals of gui_macos.m: the `events` array with
`event_count`, and the `modifier_key_down[256]` array (indexed by
keycode, all zero at start). -/
structure MacState where
  events : List KeyEvent
  modifier_key_down : Nat → Bool

/-- State at session start: empty buffer, no modifier tracked as held. -/
def init : MacState := { events := [], modifier_key_down := fun _ => false }

/-- `record_event` of gui_macos.m.  `ts` is the `mach_absolute_time`
reading already converted by `abs_to_ms`. -/
def record_event (st : MacState) (ev : NSEvent) (event_type_str : String)
    (ts : Int) : MacState :=
  if MAX_EVENTS ≤ st.events.length then st
  else
    { st with events := st.events ++
        [{ seq := st.events.length + 1,
           timestamp_ms := ts,
           event_timestamp_ms := ev.timestamp_ms,
           event_type := event_type_str,
           keycode := (ev.keyCode : Int),
           scancode := 0,
           character := strtake 7 (keycode_to_char ev.keyCode),
           modifiers := build_modifier_string ev.modifierFlags,
           is_repeat := if ev.isARepeat then 1 else 0 }] }

/-- `record_flags_changed` of gui_macos.m: toggle resolution over the
`modifier_key_down` array (only indices below 256 are tracked), then the
same record construction with `is_repeat = 0`. -/
def record_flags_changed (st : MacState) (ev : NSEvent) (ts : Int) :
    MacState :=
  if MAX_EVENTS ≤ st.events.length then st
  else
    let keycode := ev.keyCode
    let (event_type_str, md) :=
      if keycode < 256 ∧ st.modifier_key_down keycode = true then
        ("key_up", Function.update st.modifier_key_down keycode false)
      else
        ("key_down",
          if keycode < 256 then
            Function.update st.modifier_key_down keycode true
          else st.modifier_key_down)
    { events := st.events ++
        [{ seq := st.events.length + 1,
           timestamp_ms := ts,
           event_timestamp_ms := ev.timestamp_ms,
           event_type := event_type_str,
           keycode := (keycode : Int),
           scancode := 0,
           character := strtake 7 (keycode_to_char keycode),
           modifiers := build_modifier_string ev.modifierFlags,
           is_repeat := 0 }],
      modifier_key_down := md }

/-- The three key messages `TimingWindow` forwards to the recorders. -/
inductive NSInputKind where
  | keyDown
  | keyUp
  | flagsChanged

/-- One delivered NSEvent with its dispatch kind and the clock reading
taken inside the callback. -/
structure NSInput where
  kind : NSInputKind
  ev : NSEvent
  ts : Int

/-- The window's message dispatch: `keyDown:` ignores the Escape stop key
(that branch flushes and terminates, recording nothing) and records
`"key_down"` otherwise; `keyUp:` records `"key_up"`; `flagsChanged:` runs
the toggle resolution. -/
def dispatch (st : MacState) (i : NSInput) : MacState :=
  match i.kind with
  | .keyDown =>
    if i.ev.keyCode = 0x35 then st else record_event st i.ev "key_down" i.ts
  | .keyUp => record_event st i.ev "key_up" i.ts
  | .flagsChanged => record_flags_changed st i.ev i.ts

/-- The state after a session that delivered `inputs` in order. -/
def process (inputs : List NSInput) : MacState := inputs.foldl dispatch init

/-- Body of `signal_handler` in gui_macos.m:
`write_csv(); _exit(0);` — the flush and the process exit happen in
signal context. -/
def signal_handler_actions : List StopAction := [StopAction.flush, StopAction.exit_process]

/-- The Escape branch of `keyDown:` in gui_macos.m:
`write_csv(); [NSApp terminate:nil];` — the flush happens inside the
event callback. -/
def escape_keydown_actions : List StopAction :=
  [StopAction.flush, StopAction.post_termination]

end GuiMacos

namespace TerminalMacos

/-- `build_modifier_string` of terminal_macos.c over the `CGEventFlags`
mask bits shift / control / alternate / command. -/
def build_modifier_string (flags : ModifierFlags) : String :=
  let buf := ""
  let first := true
  let (buf, first) :=
    if flags.shift then (buf ++ "shift", false) else (buf, first)
  let (buf, first) :=
    if flags.control then ((if first then buf else buf ++ "+") ++ "ctrl", false)
    else (buf, first)
  let (buf, first) :=
    if flags.optionKey then ((if first then buf else buf ++ "+") ++ "alt", false)
    else (buf, first)
  let (buf, first) :=
    if flags.command then ((if first then buf else buf ++ "+") ++ "cmd", false)
    else (buf, first)
  if first then "none" else buf

/-- The `kVK_`-indexed table of `keycode_to_char` in terminal_macos.c,
with the numeric values of the Carbon constants; the array has
`sizeof(map)/sizeof(map[0]) = 0x36` entries. -/
def keycode_map : List (Nat × String) :=
  [(0x00, "a"), (0x01, "s"), (0x02, "d"), (0x03, "f"),
   (0x04, "h"), (0x05, "g"), (0x06, "z"), (0x07, "x"),
   (0x08, "c"), (0x09, "v"), (0x0B, "b"), (0x0C, "q"),
   (0x0D, "w"), (0x0E, "e"), (0x0F, "r"), (0x10, "y"),
   (0x11, "t"), (0x12, "1"), (0x13, "2"), (0x14, "3"),
   (0x15, "4"), (0x16, "6"), (0x17, "5"), (0x19, "9"),
   (0x1A, "7"), (0x1C, "8"), (0x1D, "0"), (0x1F, "o"),
   (0x20, "u"), (0x22, "i"), (0x23, "p"), (0x25, "l"),
   (0x26, "j"), (0x28, "k"), (0x2D, "n"), (0x2E, "m"),
   (0x31, "space"), (0x24, "return"), (0x30, "tab"),
   (0x33, "backspace"), (0x35, "escape")]

/-- `keycode_to_char` of terminal_macos.c: table lookup for
`0 <= keycode < 0x36`, otherwise
`snprintf(buf, ..., "0x%02llx", (unsigned long long)keycode)` (the cast
reduces a negative `int64_t` modulo `2^64`). -/
def keycode_to_char (keycode : Int) : String :=
  if 0 ≤ keycode ∧ keycode < 0x36 then
    match tableLookup keycode_map keycode.toNat with
    | some s => s
    | none => "0x" ++ hex02 (Int.toNat (keycode % (2 ^ 64)))
  else "0x" ++ hex02 (Int.toNat (keycode % (2 ^ 64)))

/-- The CGEvent types the tap is registered for. -/
inductive CGEventType where
  | keyDown
  | keyUp
  | flagsChanged
  | other
deriving DecidableEq

/-- The CGEvent fields `event_callback` reads; `timestamp_ms` is
`CGEventGetTimestamp(event) / 1e6` in thousandths of a millisecond. -/
structure CGEvent where
  keycode : Int
  flags : ModifierFlags
  autorepeat : Int
  timestamp_ms : Int

/-- The mutable globals of terminal_macos.c: the `events` array and the
`modifier_key_down[256]` tracker (here a predicate on the int64 keycode;
the source only ever writes indices in `[0, 256)`). -/
structure TapState where
  events : List KeyEvent
  modifier_key_down : Int → Bool

/-- State at session start. -/
def tap_init : TapState := { events := [], modifier_key_down := fun _ => false }

/-- `event_callback` of terminal_macos.c.  All four registered event types
reach it; anything else returns the event untouched.  Note the
`kCGEventFlagsChanged` branch with a keycode outside `[0, 256)`, which
records with `event_type_str = "flags_changed"`. -/
def event_callback (st : TapState) (type : CGEventType) (ev : CGEvent)
    (ts : Int) : TapState :=
  if MAX_EVENTS ≤ st.events.length then st
  else
    let keycode := ev.keycode
    let step : Option (String × (Int → Bool)) :=
      match type with
      | .keyDown => some ("key_down", st.modifier_key_down)
      | .keyUp => some ("key_up", st.modifier_key_down)
      | .flagsChanged =>
        if 0 ≤ keycode ∧ keycode < 256 then
          if st.modifier_key_down keycode then
            some ("key_up", Function.update st.modifier_key_down keycode false)
          else
            some ("key_down", Function.update st.modifier_key_down keycode true)
        else some ("flags_changed", st.modifier_key_down)
      | .other => none
    match step with
    | none => st
    | some (event_type_str, md) =>
      { events := st.events ++
          [{ seq := st.events.length + 1,
             timestamp_ms := ts,
             event_timestamp_ms := ev.timestamp_ms,
             event_type := event_type_str,
             keycode := keycode,
             scancode := 0,
             character := strtake 7 (keycode_to_char keycode),
             modifiers := build_modifier_string ev.flags,
             is_repeat := ev.autorepeat.toNat }],
        modifier_key_down := md }

/-- Body of `signal_handler` in terminal_macos.c:
`running = 0; CFRunLoopStop(CFRunLoopGetMain());`. -/
def signal_handler_actions : List StopAction :=
  [StopAction.set_stop_flag, StopAction.post_termination]

/-- Shape of `main`: the `CFRunLoopRunInMode` loop runs while `running`,
each tap delivery at most recording; `write_csv` runs once after the loop
has returned. -/
def session_trace (n : Nat) : List StopAction :=
  List.replicate n StopAction.record_action ++ [StopAction.flush]

end TerminalMacos

/-! ## General helper lemmas: strings, digit renderings, CSV fields -/

theorem string_data_append (a b : String) :
    (a ++ b).data = a.data ++ b.data := rfl

theorem string_mk_data (l : List Char) : (String.mk l).data = l := rfl

theorem ccount_append (a b : String) :
    ccount (a ++ b) = ccount a + ccount b := by
  simp [ccount, string_data_append, List.count_append]

theorem ccount_eq_zero (s : String) (h : ',' ∉ s.data) : ccount s = 0 := by
  simpa [ccount] using List.count_eq_zero.mpr h

theorem tableLookup_mem {α : Type} [DecidableEq α]
    (t : List (α × String)) (k : α) (v : String)
    (h : tableLookup t k = some v) : v ∈ t.map Prod.snd := by
  induction t with
  | nil => simp [tableLookup] at h
  | cons p rest ih =>
    obtain ⟨a, b⟩ := p
    simp only [tableLookup] at h
    split at h
    · cases h; simp
    · simpa using Or.inr (ih h)

theorem splitOnComma_ne_nil (l : List Char) : splitOnComma l ≠ [] := by
  induction l with
  | nil => simp [splitOnComma]
  | cons c rest ih =>
    simp only [splitOnComma]
    cases h : splitOnComma rest with
    | nil => simp
    | cons f fs => by_cases hc : c = ',' <;> simp [hc]

theorem splitOnComma_length (l : List Char) :
    (splitOnComma l).length = l.count ',' + 1 := by
  induction l with
  | nil => simp [splitOnComma]
  | cons c rest ih =>
    simp only [splitOnComma]
    cases h : splitOnComma rest with
    | nil => exact absurd h (splitOnComma_ne_nil rest)
    | cons f fs =>
      rw [h] at ih
      by_cases hc : c = ','
      · subst hc
        simp only [List.length_cons] at ih
        simp only [List.count_cons, List.length_cons, if_pos rfl,
          beq_self_eq_true, if_true]
        omega
      · have hcb : (c == ',') = false := by
          simp only [beq_eq_false_iff_ne]
          exact hc
        simp only [List.length_cons] at ih
        simp only [if_neg hc, List.count_cons, List.length_cons, hcb,
          if_false, Bool.false_eq_true]
        omega

theorem digitChar_ne_comma : ∀ d, d < 10 → digitChar d ≠ ',' := by decide

theorem hexChar_ne_comma : ∀ d, d < 16 → hexChar d ≠ ',' := by decide

theorem mem_decAux (fuel : Nat) : ∀ n acc c, c ∈ decAux fuel n acc →
    c ∈ acc ∨ ∃ d, d < 10 ∧ c = digitChar d := by
  induction fuel with
  | zero => intro n acc c h; exact Or.inl h
  | succ fuel ih =>
    intro n acc c h
    simp only [decAux] at h
    split at h
    · exact Or.inl h
    · rcases ih _ _ _ h with h' | h'
      · rcases List.mem_cons.mp h' with h'' | h''
        · exact Or.inr ⟨n % 10, Nat.mod_lt _ (by decide), h''⟩
        · exact Or.inl h''
      · exact Or.inr h'

theorem mem_hexAux (fuel : Nat) : ∀ n acc c, c ∈ hexAux fuel n acc →
    c ∈ acc ∨ ∃ d, d < 16 ∧ c = hexChar d := by
  induction fuel with
  | zero => intro n acc c h; exact Or.inl h
  | succ fuel ih =>
    intro n acc c h
    simp only [hexAux] at h
    split at h
    · exact Or.inl h
    · rcases ih _ _ _ h with h' | h'
      · rcases List.mem_cons.mp h' with h'' | h''
        · exact Or.inr ⟨n % 16, Nat.mod_lt _ (by decide), h''⟩
        · exact Or.inl h''
      · exact Or.inr h'

theorem comma_not_mem_decRepr (n : Nat) : ',' ∉ (decRepr n).data := by
  unfold decRepr
  split
  · decide
  · intro h
    rcases mem_decAux n n [] ',' h with h' | ⟨d, hd, he⟩
    · simp at h'
    · exact digitChar_ne_comma d hd he.symm

theorem comma_not_mem_hexRepr (n : Nat) : ',' ∉ (hexRepr n).data := by
  unfold hexRepr
  split
  · decide
  · intro h
    rcases mem_hexAux n n [] ',' h with h' | ⟨d, hd, he⟩
    · simp at h'
    · exact hexChar_ne_comma d hd he.symm

theorem comma_not_mem_hex02 (n : Nat) : ',' ∉ (hex02 n).data := by
  unfold hex02
  split
  · rw [string_data_append]
    intro h
    rcases List.mem_append.mp h with h' | h'
    · simp at h'
    · exact comma_not_mem_hexRepr n h'
  · exact comma_not_mem_hexRepr n

theorem ccount_decRepr (n : Nat) : ccount (decRepr n) = 0 :=
  ccount_eq_zero _ (comma_not_mem_decRepr n)

theorem ccount_intRepr (i : Int) : ccount (intRepr i) = 0 := by
  unfold intRepr
  split
  · rw [ccount_append, ccount_decRepr]
    decide
  · exact ccount_decRepr _

theorem ccount_frac3 (n : Nat) : ccount (frac3 n) = 0 := by
  unfold frac3
  split
  · rw [ccount_append, ccount_decRepr]; decide
  · split
    · rw [ccount_append, ccount_decRepr]; decide
    · exact ccount_decRepr _

theorem ccount_render3 (x : Int) : ccount (render3 x) = 0 := by
  unfold render3
  rw [ccount_append, ccount_append, ccount_append, ccount_decRepr,
    ccount_frac3]
  split <;> decide

theorem csv_row_ccount (e : KeyEvent) (h : record_comma_free e) :
    ccount (csv_row e) = 8 := by
  obtain ⟨h1, h2, h3⟩ := h
  unfold csv_row
  rw [ccount_append, ccount_append, ccount_append, ccount_append,
    ccount_append, ccount_append, ccount_append, ccount_append,
    ccount_append, ccount_append, ccount_append, ccount_append,
    ccount_append, ccount_append, ccount_append, ccount_append,
    ccount_decRepr, ccount_decRepr, ccount_decRepr, ccount_intRepr,
    ccount_render3, ccount_render3, ccount_eq_zero _ h1,
    ccount_eq_zero _ h2, ccount_eq_zero _ h3]
  decide

theorem csv_row_fields (e : KeyEvent) (h : record_comma_free e) :
    (splitOnComma (csv_row e).data).length = 9 := by
  rw [splitOnComma_length]
  have h8 := csv_row_ccount e h
  unfold ccount at h8
  omega

theorem strtake_comma_free (n : Nat) (s : String) (h : ',' ∉ s.data) :
    ',' ∉ (strtake n s).data := by
  unfold strtake
  rw [string_mk_data]
  exact fun hm => h (List.take_subset n s.data hm)

theorem write_csv_lines_length (md : SessionMetadata) (events : List KeyEvent) :
    (write_csv_lines md events).length = events.length + 6 := by
  simp [write_csv_lines]

theorem comma_not_mem_hex_token (p : String) (hp : ',' ∉ p.data) (n : Nat) :
    ',' ∉ (p ++ hex02 n).data := by
  rw [string_data_append]
  intro hm
  rcases List.mem_append.mp hm with h' | h'
  · exact hp h'
  · exact comma_not_mem_hex02 n h'

theorem printable_ofNat_ne_comma :
    ∀ w, w < 127 → w ≠ 44 → Char.ofNat w ≠ ',' := by decide

theorem foldl_invariant {α σ : Type} (f : σ → α → σ) (P : σ → Prop)
    (hstep : ∀ s a, P s → P (f s a)) :
    ∀ (l : List α) (s : σ), P s → P (l.foldl f s) := by
  intro l
  induction l with
  | nil => intro s h; exact h
  | cons x xs ih => intro s h; exact ih (f s x) (hstep s x h)

theorem foldl_prefix_stable {α : Type} (f : List KeyEvent → α → List KeyEvent)
    (hstep : ∀ s a, s <+: f s a) :
    ∀ (l : List α) (s : List KeyEvent), s <+: l.foldl f s := by
  intro l
  induction l with
  | nil => intro s; exact List.prefix_refl s
  | cons x xs ih => intro s; exact (hstep s x).trans (ih (f s x))

theorem map_seq_concat (st : List KeyEvent) (r : KeyEvent)
    (h : st.map KeyEvent.seq = List.range' 1 st.length)
    (hr : r.seq = st.length + 1) :
    (st ++ [r]).map KeyEvent.seq = List.range' 1 (st ++ [r]).length := by
  rw [List.map_append, h, List.length_append]
  simp [hr, List.range'_concat, Nat.add_comm]

namespace TerminalWindows

theorem tw_modifier_string_comma_free (ks : WinKeyState) :
    ',' ∉ (build_modifier_string ks).data := by
  obtain ⟨a, b, c, d⟩ := ks
  revert a b c d
  decide

theorem vk_named_facts :
    ∀ v ∈ vk_named.map Prod.snd, ',' ∉ v.data ∧ v.data ≠ [] := by decide

theorem vk_fallback_comma_free (vk : Nat) : ',' ∉ (vk_fallback vk).data := by
  unfold vk_fallback
  cases h : tableLookup vk_named vk with
  | some s => exact (vk_named_facts s (tableLookup_mem _ _ _ h)).1
  | none => exact comma_not_mem_hex_token "vk_0x" (by decide) vk

theorem vk_fallback_ne_nil (vk : Nat) : (vk_fallback vk).data ≠ [] := by
  unfold vk_fallback
  cases h : tableLookup vk_named vk with
  | some s => exact (vk_named_facts s (tableLookup_mem _ _ _ h)).2
  | none => rw [string_data_append]; simp

theorem vk_to_char_comma_cases (probe : Option Nat) (vk : Nat) :
    ',' ∉ (vk_to_char probe vk).data ∨ vk_to_char probe vk = "," := by
  cases probe with
  | none => exact Or.inl (vk_fallback_comma_free vk)
  | some w =>
    simp only [vk_to_char]
    split
    · rename_i hw
      by_cases h44 : w = 44
      · subst h44
        exact Or.inr (by decide)
      · left
        rw [string_mk_data]
        intro hm
        rcases List.mem_cons.mp hm with h' | h'
        · exact printable_ofNat_ne_comma w hw.2 h44 h'.symm
        · simp at h'
    · exact Or.inl (vk_fallback_comma_free vk)

theorem vk_to_char_ne_nil (probe : Option Nat) (vk : Nat) :
    (vk_to_char probe vk).data ≠ [] := by
  cases probe with
  | none => exact vk_fallback_ne_nil vk
  | some w =>
    simp only [vk_to_char]
    split
    · rw [string_mk_data]; simp
    · exact vk_fallback_ne_nil vk

theorem hook_is_repeat_eq_zero (flags : Nat) : hook_is_repeat flags = 0 := by
  unfold hook_is_repeat
  exact ite_self 0

theorem keyboard_hook_cases (st : List KeyEvent) (nCode : Int) (w : WMessage)
    (kb : KBDLLHOOKSTRUCT) (probe : Option Nat) (ks : WinKeyState) (ts : Int) :
    keyboard_hook st nCode w kb probe ks ts = st ∨
    ∃ r, keyboard_hook st nCode w kb probe ks ts = st ++ [r] ∧
      r.seq = st.length + 1 ∧ r.is_repeat = 0 ∧
      (r.event_type = "key_down" ∨ r.event_type = "key_up") ∧
      r.character = strtake 15 (vk_to_char probe kb.vkCode) ∧
      r.modifiers = build_modifier_string ks := by
  unfold keyboard_hook
  split
  · exact Or.inl rfl
  · cases w
    case keydown =>
      exact Or.inr ⟨_, rfl, rfl, hook_is_repeat_eq_zero kb.flags,
        Or.inl rfl, rfl, rfl⟩
    case syskeydown =>
      exact Or.inr ⟨_, rfl, rfl, hook_is_repeat_eq_zero kb.flags,
        Or.inl rfl, rfl, rfl⟩
    case keyup => exact Or.inr ⟨_, rfl, rfl, rfl, Or.inr rfl, rfl, rfl⟩
    case syskeyup => exact Or.inr ⟨_, rfl, rfl, rfl, Or.inr rfl, rfl, rfl⟩
    case other => exact Or.inl rfl

theorem keyboard_hook_full (st : List KeyEvent) (nCode : Int) (w : WMessage)
    (kb : KBDLLHOOKSTRUCT) (probe : Option Nat) (ks : WinKeyState) (ts : Int)
    (h : MAX_EVENTS ≤ st.length) :
    keyboard_hook st nCode w kb probe ks ts = st := by
  unfold keyboard_hook
  rw [if_pos (Or.inr h)]

theorem keyboard_hook_extends (st : List KeyEvent) (i : HookInput) :
    st <+: keyboard_hook st i.nCode i.wParam i.kb i.probe i.ks i.ts := by
  rcases keyboard_hook_cases st i.nCode i.wParam i.kb i.probe i.ks i.ts with
    h | ⟨r, h, _⟩
  · rw [h]
  · rw [h]; exact List.prefix_append st [r]

end TerminalWindows

namespace GuiWindows

theorem record_key_event_cases (st : List KeyEvent) (vk : Nat) (lParam : Nat)
    (etype : String) (probe : Option Nat) (ks : WinKeyState) (ts : Int)
    (mt : Nat) :
    record_key_event st vk lParam etype probe ks ts mt = st ∨
    ∃ r, record_key_event st vk lParam etype probe ks ts mt = st ++ [r] ∧
      r.seq = st.length + 1 ∧ r.event_type = etype := by
  unfold record_key_event
  split
  · exact Or.inl rfl
  · exact Or.inr ⟨_, rfl, rfl, rfl⟩

theorem record_key_event_full (st : List KeyEvent) (vk : Nat) (lParam : Nat)
    (etype : String) (probe : Option Nat) (ks : WinKeyState) (ts : Int)
    (mt : Nat) (h : MAX_EVENTS ≤ st.length) :
    record_key_event st vk lParam etype probe ks ts mt = st := by
  unfold record_key_event
  rw [if_pos h]

end GuiWindows

namespace GuiMacos

theorem gm_modifier_string_comma_free (flags : ModifierFlags) :
    ',' ∉ (build_modifier_string flags).data := by
  obtain ⟨a, b, c, d⟩ := flags
  revert a b c d
  decide

theorem keycode_map_facts :
    ∀ v ∈ keycode_map.map Prod.snd, ',' ∉ v.data ∧ v.data ≠ [] := by decide

theorem keycode_to_char_comma_free (k : Nat) :
    ',' ∉ (keycode_to_char k).data := by
  unfold keycode_to_char
  split
  · cases h : tableLookup keycode_map k with
    | some s => exact (keycode_map_facts s (tableLookup_mem _ _ _ h)).1
    | none => exact comma_not_mem_hex_token "0x" (by decide) k
  · exact comma_not_mem_hex_token "0x" (by decide) k

theorem keycode_to_char_ne_nil (k : Nat) : (keycode_to_char k).data ≠ [] := by
  unfold keycode_to_char
  split
  · cases h : tableLookup keycode_map k with
    | some s => exact (keycode_map_facts s (tableLookup_mem _ _ _ h)).2
    | none => rw [string_data_append]; simp
  · rw [string_data_append]; simp

theorem record_event_cases (st : MacState) (ev : NSEvent) (etype : String)
    (ts : Int) :
    record_event st ev etype ts = st ∨
    ∃ r, (record_event st ev etype ts).events = st.events ++ [r] ∧
      (record_event st ev etype ts).modifier_key_down = st.modifier_key_down ∧
      r.seq = st.events.length + 1 ∧ r.event_type = etype ∧
      r.character = strtake 7 (keycode_to_char ev.keyCode) ∧
      r.modifiers = build_modifier_string ev.modifierFlags := by
  unfold record_event
  split
  · exact Or.inl rfl
  · exact Or.inr ⟨_, rfl, rfl, rfl, rfl, rfl, rfl⟩

theorem record_event_full (st : MacState) (ev : NSEvent) (etype : String)
    (ts : Int) (h : MAX_EVENTS ≤ st.events.length) :
    record_event st ev etype ts = st := by
  unfold record_event
  rw [if_pos h]

theorem record_flags_changed_cases (st : MacState) (ev : NSEvent) (ts : Int) :
    record_flags_changed st ev ts = st ∨
    ∃ r, (record_flags_changed st ev ts).events = st.events ++ [r] ∧
      r.seq = st.events.length + 1 ∧ r.is_repeat = 0 ∧
      (r.event_type = "key_down" ∨ r.event_type = "key_up") ∧
      r.character = strtake 7 (keycode_to_char ev.keyCode) ∧
      r.modifiers = build_modifier_string ev.modifierFlags := by
  unfold record_flags_changed
  split
  · exact Or.inl rfl
  · by_cases h : ev.keyCode < 256 ∧ st.modifier_key_down ev.keyCode = true
    · simp only [if_pos h]
      exact Or.inr ⟨_, rfl, rfl, rfl, Or.inr rfl, rfl, rfl⟩
    · simp only [if_neg h]
      exact Or.inr ⟨_, rfl, rfl, rfl, Or.inl rfl, rfl, rfl⟩

theorem record_flags_changed_full (st : MacState) (ev : NSEvent) (ts : Int)
    (h : MAX_EVENTS ≤ st.events.length) :
    record_flags_changed st ev ts = st := by
  unfold record_flags_changed
  rw [if_pos h]

theorem dispatch_cases (st : MacState) (i : NSInput) :
    dispatch st i = st ∨
    ∃ r, (dispatch st i).events = st.events ++ [r] ∧
      r.seq = st.events.length + 1 ∧
      (r.event_type = "key_down" ∨ r.event_type = "key_up") ∧
      r.character = strtake 7 (keycode_to_char i.ev.keyCode) ∧
      r.modifiers = build_modifier_string i.ev.modifierFlags := by
  obtain ⟨k, ev0, ts0⟩ := i
  cases k
  case keyDown =>
    simp only [dispatch]
    split
    · exact Or.inl rfl
    · rcases record_event_cases st ev0 "key_down" ts0 with
        h | ⟨r, h1, _, h3, h4, h5, h6⟩
      · exact Or.inl h
      · exact Or.inr ⟨r, h1, h3, Or.inl h4, h5, h6⟩
  case keyUp =>
    rcases record_event_cases st ev0 "key_up" ts0 with
      h | ⟨r, h1, _, h3, h4, h5, h6⟩
    · exact Or.inl h
    · exact Or.inr ⟨r, h1, h3, Or.inr h4, h5, h6⟩
  case flagsChanged =>
    rcases record_flags_changed_cases st ev0 ts0 with
      h | ⟨r, h1, h3, _, h4, h5, h6⟩
    · exact Or.inl h
    · exact Or.inr ⟨r, h1, h3, h4, h5, h6⟩

end GuiMacos

namespace TerminalMacos

theorem tm_modifier_string_comma_free (flags : ModifierFlags) :
    ',' ∉ (build_modifier_string flags).data := by
  obtain ⟨a, b, c, d⟩ := flags
  revert a b c d
  decide

theorem event_callback_cases (st : TapState) (type : CGEventType)
    (ev : CGEvent) (ts : Int) :
    event_callback st type ev ts = st ∨
    ∃ r, (event_callback st type ev ts).events = st.events ++ [r] ∧
      r.seq = st.events.length + 1 ∧
      ((r.event_type = "key_down" ∨ r.event_type = "key_up") ∨
        (r.event_type = "flags_changed" ∧ type = CGEventType.flagsChanged ∧
          (ev.keycode < 0 ∨ 256 ≤ ev.keycode))) := by
  cases type
  case keyDown =>
    simp only [event_callback]
    split
    · exact Or.inl rfl
    · exact Or.inr ⟨_, rfl, rfl, Or.inl (Or.inl rfl)⟩
  case keyUp =>
    simp only [event_callback]
    split
    · exact Or.inl rfl
    · exact Or.inr ⟨_, rfl, rfl, Or.inl (Or.inr rfl)⟩
  case flagsChanged =>
    simp only [event_callback]
    split
    · exact Or.inl rfl
    · by_cases h : 0 ≤ ev.keycode ∧ ev.keycode < 256
      · rw [if_pos h]
        cases h2 : st.modifier_key_down ev.keycode
        · exact Or.inr ⟨_, rfl, rfl, Or.inl (Or.inl rfl)⟩
        · exact Or.inr ⟨_, rfl, rfl, Or.inl (Or.inr rfl)⟩
      · rw [if_neg h]
        exact Or.inr ⟨_, rfl, rfl, Or.inr ⟨rfl, by trivial, by omega⟩⟩
  case other =>
    simp only [event_callback]
    split
    · exact Or.inl rfl
    · exact Or.inl rfl

theorem event_callback_full (st : TapState) (type : CGEventType)
    (ev : CGEvent) (ts : Int) (h : MAX_EVENTS ≤ st.events.length) :
    event_callback st type ev ts = st := by
  unfold event_callback
  rw [if_pos h]

end TerminalMacos

/-! ## Claim theorems -/

/-- Claim C1, counterexample: the claim says a process-interrupt signal
handler only requests loop termination and performs no I/O, but the
`signal_handler` of gui_macos.m (installed for SIGTERM and SIGINT) calls
`write_csv()` — the flush — and `_exit(0)` directly in signal context, so
its action list is not termination-request-only and contains the flush. -/
theorem c1_counterexample :
    requests_termination_only GuiMacos.signal_handler_actions = false ∧
    StopAction.flush ∈ GuiMacos.signal_handler_actions :=
  ⟨by decide,
    show StopAction.flush ∈ [StopAction.flush, StopAction.exit_process] from
      List.mem_cons_self _ _⟩

theorem count_flush_replicate (n : Nat) :
    (List.replicate n StopAction.record_action).count StopAction.flush = 0 := by
  induction n with
  | zero => rfl
  | succ n ih =>
    simp [List.replicate_succ, List.count_cons, ih]
    decide

/-- Claim C1, amended: on the global-hook/event-tap variants
(terminal_windows.c, terminal_macos.c) the interrupt handler only requests
loop termination (sets the `running` flag and posts a quit message / stops
the run loop), and the flush runs exactly once, as the last action, after
the capture loop has unwound.  On the GUI variants, however, the flush runs
from inside the event callback (the Escape branch of `keyDown:` /
`WM_KEYDOWN` and the `WM_DESTROY` branch call `write_csv` directly), and
the macOS GUI `signal_handler` itself performs the flush and exits. -/
theorem c1_amended :
    requests_termination_only TerminalWindows.console_handler_actions = true ∧
    requests_termination_only TerminalMacos.signal_handler_actions = true ∧
    (∀ n : Nat,
      (TerminalWindows.session_trace n).count StopAction.flush = 1 ∧
      (TerminalWindows.session_trace n).getLast? = some StopAction.flush ∧
      (TerminalMacos.session_trace n).count StopAction.flush = 1 ∧
      (TerminalMacos.session_trace n).getLast? = some StopAction.flush) ∧
    StopAction.flush ∈ GuiMacos.signal_handler_actions ∧
    StopAction.flush ∈ GuiMacos.escape_keydown_actions ∧
    StopAction.flush ∈ GuiWindows.escape_actions ∧
    StopAction.flush ∈ GuiWindows.wm_destroy_actions := by
  have hmem : ∀ a : StopAction, StopAction.flush ∈ [StopAction.flush, a] :=
    fun a => List.mem_cons_self _ _
  refine ⟨by decide, by decide, fun n => ⟨?_, ?_, ?_, ?_⟩,
    hmem _, hmem _, hmem _, hmem _⟩
  · simp only [TerminalWindows.session_trace, List.count_append,
      count_flush_replicate]
    decide
  · simp [TerminalWindows.session_trace, List.getLast?_concat]
  · simp only [TerminalMacos.session_trace, List.count_append,
      count_flush_replicate]
    decide
  · simp [TerminalMacos.session_trace, List.getLast?_concat]

/-- Claim C5, counterexample: the claim says a record created while the
platform-meta key (win) is held includes the meta name and that the string
is `"none"` exactly when no modifier is held.  With only the win key held,
`build_modifier_string` of gui_windows.c (which never queries
`VK_LWIN`/`VK_RWIN`) returns `"none"`, while the spec's canonical builder
over {shift, ctrl, alt, win} would return `"win"`. -/
theorem c5_counterexample :
    GuiWindows.build_modifier_string
      { shift := false, control := false, menu := false, win := true } =
        "none" ∧
    modifiers_spec
      [(false, "shift"), (false, "ctrl"), (false, "alt"), (true, "win")] =
        "win" := by decide

/-- Claim C5, amended: the macOS builders realise the spec's canonical
string exactly, over the fixed order shift, ctrl, alt, cmd; the Windows
builders realise it only over shift, ctrl, alt — they never query the win
key, so the platform-meta name is never included (and a win-only state
renders as `"none"`). -/
theorem c5_amended :
    (∀ a b c d : Bool,
      GuiMacos.build_modifier_string ⟨a, b, c, d⟩ =
        modifiers_spec [(a, "shift"), (b, "ctrl"), (c, "alt"), (d, "cmd")]) ∧
    (∀ a b c d : Bool,
      TerminalMacos.build_modifier_string ⟨a, b, c, d⟩ =
        modifiers_spec [(a, "shift"), (b, "ctrl"), (c, "alt"), (d, "cmd")]) ∧
    (∀ a b c w : Bool,
      GuiWindows.build_modifier_string ⟨a, b, c, w⟩ =
        modifiers_spec [(a, "shift"), (b, "ctrl"), (c, "alt")]) ∧
    (∀ a b c w : Bool,
      TerminalWindows.build_modifier_string ⟨a, b, c, w⟩ =
        modifiers_spec [(a, "shift"), (b, "ctrl"), (c, "alt")]) := by decide

/-- Claim C9: on the Windows low-level hook path the repeat-flag
computation `(kb->flags & LLKHF_UP) ? 0 : 0` is a dead expression that
always evaluates to 0, and consequently every record the hook appends has
`is_repeat = 0`. -/
theorem c9_dead_repeat_expression :
    (∀ flags : Nat, TerminalWindows.hook_is_repeat flags = 0) ∧
    (∀ (st : List KeyEvent) (nCode : Int) (w : TerminalWindows.WMessage)
      (kb : TerminalWindows.KBDLLHOOKSTRUCT) (probe : Option Nat)
      (ks : WinKeyState) (ts : Int),
      TerminalWindows.keyboard_hook st nCode w kb probe ks ts = st ∨
      ∃ r, TerminalWindows.keyboard_hook st nCode w kb probe ks ts =
          st ++ [r] ∧ r.is_repeat = 0) := by
  refine ⟨TerminalWindows.hook_is_repeat_eq_zero,
    fun st nCode w kb probe ks ts => ?_⟩
  rcases TerminalWindows.keyboard_hook_cases st nCode w kb probe ks ts with
    h | ⟨r, h1, _, h2, _⟩
  · exact Or.inl h
  · exact Or.inr ⟨r, h1, h2⟩

/-- Claim C10: with the buffer at capacity an incoming event mutates no
state at all — `record_event` and `record_flags_changed` of gui_macos.m and
`event_callback` of terminal_macos.c return the state (buffer and
per-keycode held map) unchanged, because the capacity guard returns before
any mutation, so a dropped toggle notification leaves subsequent toggle
resolution as if it never occurred. -/
theorem c10_full_buffer_frame :
    ∀ (stG : GuiMacos.MacState) (evG : GuiMacos.NSEvent) (etype : String)
      (stT : TerminalMacos.TapState) (type : TerminalMacos.CGEventType)
      (evT : TerminalMacos.CGEvent) (ts : Int),
      (MAX_EVENTS ≤ stG.events.length →
        GuiMacos.record_flags_changed stG evG ts = stG ∧
        GuiMacos.record_event stG evG etype ts = stG) ∧
      (MAX_EVENTS ≤ stT.events.length →
        TerminalMacos.event_callback stT type evT ts = stT) := by
  intro stG evG etype stT type evT ts
  exact ⟨fun h => ⟨GuiMacos.record_flags_changed_full stG evG ts h,
      GuiMacos.record_event_full stG evG etype ts h⟩,
    fun h => TerminalMacos.event_callback_full stT type evT ts h⟩

/-- Witness for C10: a concrete state with exactly `MAX_EVENTS` buffered
records satisfies the capacity hypothesis, and the theorem then gives both
no-mutation equations at concrete events. -/
theorem c10_full_buffer_frame_witness :
    MAX_EVENTS ≤ (List.replicate MAX_EVENTS dummyEvent).length ∧
    (GuiMacos.record_flags_changed
        { events := List.replicate MAX_EVENTS dummyEvent,
          modifier_key_down := fun _ => false }
        { keyCode := 56, modifierFlags := ⟨true, false, false, false⟩,
          isARepeat := false, timestamp_ms := 0 } 0 =
      { events := List.replicate MAX_EVENTS dummyEvent,
        modifier_key_down := fun _ => false }) ∧
    (TerminalMacos.event_callback
        { events := List.replicate MAX_EVENTS dummyEvent,
          modifier_key_down := fun _ => false }
        TerminalMacos.CGEventType.flagsChanged
        { keycode := 56, flags := ⟨false, false, false, false⟩,
          autorepeat := 0, timestamp_ms := 0 } 0 =
      { events := List.replicate MAX_EVENTS dummyEvent,
        modifier_key_down := fun _ => false }) := by
  have hlen : MAX_EVENTS ≤ (List.replicate MAX_EVENTS dummyEvent).length := by
    simp
  refine ⟨hlen, ?_, ?_⟩
  · exact ((c10_full_buffer_frame
      { events := List.replicate MAX_EVENTS dummyEvent,
        modifier_key_down := fun _ => false }
      { keyCode := 56, modifierFlags := ⟨true, false, false, false⟩,
        isARepeat := false, timestamp_ms := 0 } "key_down"
      TerminalMacos.tap_init TerminalMacos.CGEventType.other
      { keycode := 0, flags := ⟨false, false, false, false⟩,
        autorepeat := 0, timestamp_ms := 0 } 0).1 hlen).1
  · exact (c10_full_buffer_frame GuiMacos.init
      { keyCode := 0, modifierFlags := ⟨false, false, false, false⟩,
        isARepeat := false, timestamp_ms := 0 } "key_down"
      { events := List.replicate MAX_EVENTS dummyEvent,
        modifier_key_down := fun _ => false }
      TerminalMacos.CGEventType.flagsChanged
      { keycode := 56, flags := ⟨false, false, false, false⟩,
        autorepeat := 0, timestamp_ms := 0 } 0).2 hlen

/-- Claim C2, counterexample: the claim says every record accepted into the
buffer has event_type key_down or key_up, but `event_callback` of
terminal_macos.c, given a `kCGEventFlagsChanged` event whose keycode lies
outside `[0, 256)` (here 300), appends a record whose event_type is the
third value `"flags_changed"`. -/
theorem c2_counterexample :
    ((TerminalMacos.event_callback TerminalMacos.tap_init
        TerminalMacos.CGEventType.flagsChanged
        { keycode := 300, flags := ⟨false, false, false, false⟩,
          autorepeat := 0, timestamp_ms := 0 } 0).events.map
      KeyEvent.event_type) = ["flags_changed"] ∧
    "flags_changed" ≠ "key_down" ∧ "flags_changed" ≠ "key_up" := by decide

/-- Claim C2, amended: every record accepted by the Windows hook, the
Windows window procedure's recorders, and the macOS GUI recorders has
event_type key_down or key_up; on the macOS event-tap path this also holds
except that a flags-changed notification whose keycode lies outside
`[0, 256)` is recorded with event_type `"flags_changed"`. -/
theorem c2_amended :
    (∀ (st : List KeyEvent) (nCode : Int) (w : TerminalWindows.WMessage)
      (kb : TerminalWindows.KBDLLHOOKSTRUCT) (probe : Option Nat)
      (ks : WinKeyState) (ts : Int),
      TerminalWindows.keyboard_hook st nCode w kb probe ks ts = st ∨
      ∃ r, TerminalWindows.keyboard_hook st nCode w kb probe ks ts =
          st ++ [r] ∧
        (r.event_type = "key_down" ∨ r.event_type = "key_up")) ∧
    (∀ (st : List KeyEvent) (vk lParam : Nat) (probe : Option Nat)
      (ks : WinKeyState) (ts : Int) (mt : Nat),
      (GuiWindows.record_key_event st vk lParam "key_down" probe ks ts mt =
          st ∨
        ∃ r, GuiWindows.record_key_event st vk lParam "key_down" probe ks ts
            mt = st ++ [r] ∧ r.event_type = "key_down") ∧
      (GuiWindows.record_key_event st vk lParam "key_up" probe ks ts mt =
          st ∨
        ∃ r, GuiWindows.record_key_event st vk lParam "key_up" probe ks ts
            mt = st ++ [r] ∧ r.event_type = "key_up")) ∧
    (∀ (st : GuiMacos.MacState) (i : GuiMacos.NSInput),
      GuiMacos.dispatch st i = st ∨
      ∃ r, (GuiMacos.dispatch st i).events = st.events ++ [r] ∧
        (r.event_type = "key_down" ∨ r.event_type = "key_up")) ∧
    (∀ (st : TerminalMacos.TapState) (type : TerminalMacos.CGEventType)
      (ev : TerminalMacos.CGEvent) (ts : Int),
      TerminalMacos.event_callback st type ev ts = st ∨
      ∃ r, (TerminalMacos.event_callback st type ev ts).events =
          st.events ++ [r] ∧
        ((r.event_type = "key_down" ∨ r.event_type = "key_up") ∨
          (r.event_type = "flags_changed" ∧
            type = TerminalMacos.CGEventType.flagsChanged ∧
            (ev.keycode < 0 ∨ 256 ≤ ev.keycode)))) := by
  refine ⟨fun st nCode w kb probe ks ts => ?_,
    fun st vk lParam probe ks ts mt => ⟨?_, ?_⟩,
    fun st i => ?_, fun st type ev ts => ?_⟩
  · rcases TerminalWindows.keyboard_hook_cases st nCode w kb probe ks ts with
      h | ⟨r, h1, _, _, h2, _⟩
    · exact Or.inl h
    · exact Or.inr ⟨r, h1, h2⟩
  · rcases GuiWindows.record_key_event_cases st vk lParam "key_down" probe
      ks ts mt with h | ⟨r, h1, _, h2⟩
    · exact Or.inl h
    · exact Or.inr ⟨r, h1, h2⟩
  · rcases GuiWindows.record_key_event_cases st vk lParam "key_up" probe
      ks ts mt with h | ⟨r, h1, _, h2⟩
    · exact Or.inl h
    · exact Or.inr ⟨r, h1, h2⟩
  · rcases GuiMacos.dispatch_cases st i with h | ⟨r, h1, _, h2, _⟩
    · exact Or.inl h
    · exact Or.inr ⟨r, h1, h2⟩
  · rcases TerminalMacos.event_callback_cases st type ev ts with
      h | ⟨r, h1, _, h2⟩
    · exact Or.inl h
    · exact Or.inr ⟨r, h1, h2⟩

namespace TerminalWindows

theorem tw_process_seq (inputs : List HookInput) :
    (process inputs).map KeyEvent.seq =
      List.range' 1 (process inputs).length := by
  unfold process
  refine foldl_invariant _
    (fun st => st.map KeyEvent.seq = List.range' 1 st.length) ?_ inputs []
    (by simp)
  intro s a h
  rcases keyboard_hook_cases s a.nCode a.wParam a.kb a.probe a.ks a.ts with
    h1 | ⟨r, h1, h2, _⟩
  · rw [h1]; exact h
  · rw [h1]; exact map_seq_concat s r h h2

end TerminalWindows

namespace GuiMacos

theorem gm_process_seq (inputs : List NSInput) :
    (process inputs).events.map KeyEvent.seq =
      List.range' 1 (process inputs).events.length := by
  unfold process
  refine foldl_invariant dispatch
    (fun st => st.events.map KeyEvent.seq = List.range' 1 st.events.length)
    ?_ inputs init (by simp [init])
  intro s i h
  rcases dispatch_cases s i with h1 | ⟨r, h1, h2, _⟩
  · rw [h1]; exact h
  · rw [h1]; exact map_seq_concat s.events r h h2

end GuiMacos

/-- Claim C3: in every session, the `seq` values of the accepted records
form exactly the sequence 1, 2, ..., N (strictly increasing, gapless,
starting at 1): for the Windows hook pipeline and the macOS GUI pipeline
the buffer's `seq` projection equals `List.range' 1 N`, for every sequence
of raw deliveries. -/
theorem c3_seq_gapless :
    (∀ inputs : List TerminalWindows.HookInput,
      (TerminalWindows.process inputs).map KeyEvent.seq =
        List.range' 1 (TerminalWindows.process inputs).length) ∧
    (∀ inputs : List GuiMacos.NSInput,
      (GuiMacos.process inputs).events.map KeyEvent.seq =
        List.range' 1 (GuiMacos.process inputs).events.length) :=
  ⟨TerminalWindows.tw_process_seq, GuiMacos.gm_process_seq⟩

namespace TerminalWindows

theorem keyboard_hook_length_le (st : List KeyEvent) (i : HookInput)
    (h : st.length ≤ MAX_EVENTS) :
    (keyboard_hook st i.nCode i.wParam i.kb i.probe i.ks i.ts).length ≤
      MAX_EVENTS := by
  by_cases hfull : MAX_EVENTS ≤ st.length
  · rw [keyboard_hook_full st i.nCode i.wParam i.kb i.probe i.ks i.ts hfull]
    exact h
  · rcases keyboard_hook_cases st i.nCode i.wParam i.kb i.probe i.ks i.ts
      with h1 | ⟨r, h1, _⟩
    · rw [h1]; exact h
    · rw [h1]
      simp only [List.length_append, List.length_singleton]
      omega

theorem process_length_le (inputs : List HookInput) :
    (process inputs).length ≤ MAX_EVENTS := by
  unfold process
  exact foldl_invariant _ (fun st => st.length ≤ MAX_EVENTS)
    (fun s i h => keyboard_hook_length_le s i h) inputs []
    (Nat.zero_le _)

theorem process_prefix_stable (inputs extra : List HookInput) :
    process inputs <+: process (inputs ++ extra) := by
  unfold process
  rw [List.foldl_append]
  exact foldl_prefix_stable _ (fun s i => keyboard_hook_extends s i) extra _

end TerminalWindows

/-- Claim C4: appending beyond the buffer capacity (100000) never errors:
at capacity the Windows hook and the Windows GUI recorder return the
buffer unchanged (the delivery is silently dropped), every single delivery
only ever extends the buffer (the accepted records so far survive as a
prefix), and over a whole session the buffer never exceeds the capacity
while earlier deliveries' accepted records survive unchanged under further
deliveries. -/
theorem c4_capacity_safety :
    (∀ (st : List KeyEvent) (nCode : Int) (w : TerminalWindows.WMessage)
      (kb : TerminalWindows.KBDLLHOOKSTRUCT) (probe : Option Nat)
      (ks : WinKeyState) (ts : Int), MAX_EVENTS ≤ st.length →
      TerminalWindows.keyboard_hook st nCode w kb probe ks ts = st) ∧
    (∀ (st : List KeyEvent) (vk lParam : Nat) (etype : String)
      (probe : Option Nat) (ks : WinKeyState) (ts : Int) (mt : Nat),
      MAX_EVENTS ≤ st.length →
      GuiWindows.record_key_event st vk lParam etype probe ks ts mt = st) ∧
    (∀ (st : List KeyEvent) (vk lParam : Nat) (etype : String)
      (probe : Option Nat) (ks : WinKeyState) (ts : Int) (mt : Nat),
      st <+: GuiWindows.record_key_event st vk lParam etype probe ks ts mt) ∧
    (∀ inputs : List TerminalWindows.HookInput,
      (TerminalWindows.process inputs).length ≤ MAX_EVENTS) ∧
    (∀ inputs extra : List TerminalWindows.HookInput,
      TerminalWindows.process inputs <+:
        TerminalWindows.process (inputs ++ extra)) := by
  refine ⟨fun st nCode w kb probe ks ts h =>
      TerminalWindows.keyboard_hook_full st nCode w kb probe ks ts h,
    fun st vk lParam etype probe ks ts mt h =>
      GuiWindows.record_key_event_full st vk lParam etype probe ks ts mt h,
    fun st vk lParam etype probe ks ts mt => ?_,
    TerminalWindows.process_length_le,
    TerminalWindows.process_prefix_stable⟩
  rcases GuiWindows.record_key_event_cases st vk lParam etype probe ks ts mt
    with h | ⟨r, h1, _⟩
  · rw [h]
  · rw [h1]; exact List.prefix_append st [r]

/-- Witness for C4: a buffer holding exactly `MAX_EVENTS` records
satisfies the capacity hypotheses, and the theorem then gives both
silent-drop equations at a concrete delivery. -/
theorem c4_capacity_safety_witness :
    MAX_EVENTS ≤ (List.replicate MAX_EVENTS dummyEvent).length ∧
    TerminalWindows.keyboard_hook (List.replicate MAX_EVENTS dummyEvent) 0
      TerminalWindows.WMessage.keydown
      { vkCode := 65, scanCode := 30, flags := 0, time := 0 } none
      { shift := false, control := false, menu := false, win := false } 0 =
      List.replicate MAX_EVENTS dummyEvent ∧
    GuiWindows.record_key_event (List.replicate MAX_EVENTS dummyEvent) 65 0
      "key_down" none
      { shift := false, control := false, menu := false, win := false } 0 0 =
      List.replicate MAX_EVENTS dummyEvent := by
  have hlen : MAX_EVENTS ≤ (List.replicate MAX_EVENTS dummyEvent).length := by
    simp
  exact ⟨hlen,
    c4_capacity_safety.1 _ 0 TerminalWindows.WMessage.keydown
      { vkCode := 65, scanCode := 30, flags := 0, time := 0 } none
      { shift := false, control := false, menu := false, win := false } 0 hlen,
    c4_capacity_safety.2.1 _ 65 0 "key_down" none
      { shift := false, control := false, menu := false, win := false } 0 0
      hlen⟩

/-- Claim C6, counterexample: the claim says an unmapped key identifier
falls back to a token of exactly the form `0x<code>`, but `vk_to_char` of
terminal_windows.c renders unmapped virtual keys (here `vk = 0x07`, with no
character translation) as `vk_0x07`, which does not start with `0x`. -/
theorem c6_counterexample :
    TerminalWindows.vk_to_char none 0x07 = "vk_0x07" ∧
    (TerminalWindows.vk_to_char none 0x07).data.take 2 ≠ ['0', 'x'] := by
  decide

/-- Claim C6, amended: key-name resolution never fails and always yields a
non-empty token — a single printable character, a named-key token, or a
hexadecimal fallback — but the fallback's exact shape is `0x<code>` only on
macOS (`keycode_to_char`); on Windows (`vk_to_char`) it is
`vk_0x<code>`. -/
theorem c6_amended :
    (∀ (probe : Option Nat) (vk : Nat),
      (TerminalWindows.vk_to_char probe vk).data ≠ []) ∧
    (∀ vk : Nat, tableLookup TerminalWindows.vk_named vk = none →
      TerminalWindows.vk_to_char none vk = "vk_0x" ++ hex02 vk) ∧
    (∀ keycode : Nat, (GuiMacos.keycode_to_char keycode).data ≠ []) ∧
    (∀ keycode : Nat, tableLookup GuiMacos.keycode_map keycode = none →
      GuiMacos.keycode_to_char keycode = "0x" ++ hex02 keycode) := by
  refine ⟨TerminalWindows.vk_to_char_ne_nil, fun vk h => ?_,
    GuiMacos.keycode_to_char_ne_nil, fun k h => ?_⟩
  · show TerminalWindows.vk_fallback vk = _
    unfold TerminalWindows.vk_fallback
    rw [h]
  · unfold GuiMacos.keycode_to_char
    split
    · rw [h]
    · rfl

/-- Witness for C6: concrete unmapped identifiers (`vk = 7`,
`keycode = 200`) satisfy the lookup-failure hypotheses, and the theorem
then gives the two fallback equations. -/
theorem c6_amended_witness :
    tableLookup TerminalWindows.vk_named 7 = none ∧
    TerminalWindows.vk_to_char none 7 = "vk_0x" ++ hex02 7 ∧
    tableLookup GuiMacos.keycode_map 200 = none ∧
    GuiMacos.keycode_to_char 200 = "0x" ++ hex02 200 :=
  ⟨by decide, c6_amended.2.1 7 (by decide), by decide,
    c6_amended.2.2.2 200 (by decide)⟩

/-- Claim C7, counterexample: the claim quantifies over every key
identifier, but the gui_macos.m toggle tracker only marks keycodes below
256 as held; for keycode 300, starting from the untracked initial state,
two consecutive `record_flags_changed` calls both resolve to `key_down`
(the second is not `key_up`). -/
theorem c7_counterexample :
    ((GuiMacos.record_flags_changed
        (GuiMacos.record_flags_changed GuiMacos.init
          { keyCode := 300, modifierFlags := ⟨false, false, false, false⟩,
            isARepeat := false, timestamp_ms := 0 } 0)
        { keyCode := 300, modifierFlags := ⟨false, false, false, false⟩,
          isARepeat := false, timestamp_ms := 0 } 0).events.map
      KeyEvent.event_type) = ["key_down", "key_down"] ∧
    ["key_down", "key_down"] ≠ ["key_down", "key_up"] := by decide

/-- Claim C7, amended: for every key identifier BELOW 256 (the size of the
`modifier_key_down` tracking array), toggle resolution alternates
deterministically: starting untracked, the first toggle records `key_down`
and marks the key held, the second records `key_up` and clears it — in
gui_macos.m's `record_flags_changed` and in terminal_macos.c's
`event_callback` alike (identifiers outside `[0, 256)` are never marked
held and so never resolve to `key_up`). -/
theorem c7_amended :
    (∀ (st : GuiMacos.MacState) (ev : GuiMacos.NSEvent) (ts1 ts2 : Int),
      ev.keyCode < 256 → st.modifier_key_down ev.keyCode = false →
      st.events.length + 2 ≤ MAX_EVENTS →
      ((GuiMacos.record_flags_changed st ev ts1).events.map
          KeyEvent.event_type =
        st.events.map KeyEvent.event_type ++ ["key_down"]) ∧
      ((GuiMacos.record_flags_changed st ev ts1).modifier_key_down
          ev.keyCode = true) ∧
      ((GuiMacos.record_flags_changed
          (GuiMacos.record_flags_changed st ev ts1) ev ts2).events.map
          KeyEvent.event_type =
        st.events.map KeyEvent.event_type ++ ["key_down", "key_up"]) ∧
      ((GuiMacos.record_flags_changed
          (GuiMacos.record_flags_changed st ev ts1) ev ts2).modifier_key_down
          ev.keyCode = false)) ∧
    (∀ (st : TerminalMacos.TapState) (ev : TerminalMacos.CGEvent)
      (ts1 ts2 : Int),
      0 ≤ ev.keycode → ev.keycode < 256 →
      st.modifier_key_down ev.keycode = false →
      st.events.length + 2 ≤ MAX_EVENTS →
      ((TerminalMacos.event_callback st
          TerminalMacos.CGEventType.flagsChanged ev ts1).events.map
          KeyEvent.event_type =
        st.events.map KeyEvent.event_type ++ ["key_down"]) ∧
      ((TerminalMacos.event_callback st
          TerminalMacos.CGEventType.flagsChanged ev ts1).modifier_key_down
          ev.keycode = true) ∧
      ((TerminalMacos.event_callback
          (TerminalMacos.event_callback st
            TerminalMacos.CGEventType.flagsChanged ev ts1)
          TerminalMacos.CGEventType.flagsChanged ev ts2).events.map
          KeyEvent.event_type =
        st.events.map KeyEvent.event_type ++ ["key_down", "key_up"]) ∧
      ((TerminalMacos.event_callback
          (TerminalMacos.event_callback st
            TerminalMacos.CGEventType.flagsChanged ev ts1)
          TerminalMacos.CGEventType.flagsChanged ev ts2).modifier_key_down
          ev.keycode = false)) := by
  constructor
  · intro st ev ts1 ts2 hk hmd hcap
    have hdown : ∀ (s : GuiMacos.MacState) (ts : Int),
        ¬ MAX_EVENTS ≤ s.events.length →
        s.modifier_key_down ev.keyCode = false →
        GuiMacos.record_flags_changed s ev ts =
          { events := s.events ++
              [{ seq := s.events.length + 1, timestamp_ms := ts,
                 event_timestamp_ms := ev.timestamp_ms,
                 event_type := "key_down", keycode := (ev.keyCode : Int),
                 scancode := 0,
                 character :=
                   strtake 7 (GuiMacos.keycode_to_char ev.keyCode),
                 modifiers :=
                   GuiMacos.build_modifier_string ev.modifierFlags,
                 is_repeat := 0 }],
            modifier_key_down :=
              Function.update s.modifier_key_down ev.keyCode true } := by
      intro s ts hfull hmd0
      unfold GuiMacos.record_flags_changed
      dsimp only
      rw [if_neg hfull, if_neg (by simp [hmd0]), if_pos hk]
    have hup : ∀ (s : GuiMacos.MacState) (ts : Int),
        ¬ MAX_EVENTS ≤ s.events.length →
        s.modifier_key_down ev.keyCode = true →
        GuiMacos.record_flags_changed s ev ts =
          { events := s.events ++
              [{ seq := s.events.length + 1, timestamp_ms := ts,
                 event_timestamp_ms := ev.timestamp_ms,
                 event_type := "key_up", keycode := (ev.keyCode : Int),
                 scancode := 0,
                 character :=
                   strtake 7 (GuiMacos.keycode_to_char ev.keyCode),
                 modifiers :=
                   GuiMacos.build_modifier_string ev.modifierFlags,
                 is_repeat := 0 }],
            modifier_key_down :=
              Function.update s.modifier_key_down ev.keyCode false } := by
      intro s ts hfull hmd1
      unfold GuiMacos.record_flags_changed
      dsimp only
      rw [if_neg hfull, if_pos ⟨hk, hmd1⟩]
    have hfull1 : ¬ MAX_EVENTS ≤ st.events.length := by omega
    rw [hdown st ts1 hfull1 hmd]
    have hfull2 : ¬ MAX_EVENTS ≤
        (st.events ++
          [({ seq := st.events.length + 1, timestamp_ms := ts1,
              event_timestamp_ms := ev.timestamp_ms,
              event_type := "key_down", keycode := (ev.keyCode : Int),
              scancode := 0,
              character := strtake 7 (GuiMacos.keycode_to_char ev.keyCode),
              modifiers := GuiMacos.build_modifier_string ev.modifierFlags,
              is_repeat := 0 } : KeyEvent)]).length := by
      simp only [List.length_append, List.length_singleton]
      omega
    rw [hup _ ts2 hfull2 (Function.update_same _ _ _)]
    refine ⟨by simp, Function.update_same _ _ _, by simp, ?_⟩
    dsimp only
    rw [Function.update_same]
  · intro st ev ts1 ts2 h0 hk hmd hcap
    have hdown : ∀ (s : TerminalMacos.TapState) (ts : Int),
        ¬ MAX_EVENTS ≤ s.events.length →
        s.modifier_key_down ev.keycode = false →
        TerminalMacos.event_callback s
            TerminalMacos.CGEventType.flagsChanged ev ts =
          { events := s.events ++
              [{ seq := s.events.length + 1, timestamp_ms := ts,
                 event_timestamp_ms := ev.timestamp_ms,
                 event_type := "key_down", keycode := ev.keycode,
                 scancode := 0,
                 character :=
                   strtake 7 (TerminalMacos.keycode_to_char ev.keycode),
                 modifiers := TerminalMacos.build_modifier_string ev.flags,
                 is_repeat := ev.autorepeat.toNat }],
            modifier_key_down :=
              Function.update s.modifier_key_down ev.keycode true } := by
      intro s ts hfull hmd0
      unfold TerminalMacos.event_callback
      dsimp only
      rw [if_neg hfull, if_pos ⟨h0, hk⟩, hmd0]
      rfl
    have hup : ∀ (s : TerminalMacos.TapState) (ts : Int),
        ¬ MAX_EVENTS ≤ s.events.length →
        s.modifier_key_down ev.keycode = true →
        TerminalMacos.event_callback s
            TerminalMacos.CGEventType.flagsChanged ev ts =
          { events := s.events ++
              [{ seq := s.events.length + 1, timestamp_ms := ts,
                 event_timestamp_ms := ev.timestamp_ms,
                 event_type := "key_up", keycode := ev.keycode,
                 scancode := 0,
                 character :=
                   strtake 7 (TerminalMacos.keycode_to_char ev.keycode),
                 modifiers := TerminalMacos.build_modifier_string ev.flags,
                 is_repeat := ev.autorepeat.toNat }],
            modifier_key_down :=
              Function.update s.modifier_key_down ev.keycode false } := by
      intro s ts hfull hmd1
      unfold TerminalMacos.event_callback
      dsimp only
      rw [if_neg hfull, if_pos ⟨h0, hk⟩, hmd1]
      rfl
    have hfull1 : ¬ MAX_EVENTS ≤ st.events.length := by omega
    rw [hdown st ts1 hfull1 hmd]
    have hfull2 : ¬ MAX_EVENTS ≤
        (st.events ++
          [({ seq := st.events.length + 1, timestamp_ms := ts1,
              event_timestamp_ms := ev.timestamp_ms,
              event_type := "key_down", keycode := ev.keycode,
              scancode := 0,
              character :=
                strtake 7 (TerminalMacos.keycode_to_char ev.keycode),
              modifiers := TerminalMacos.build_modifier_string ev.flags,
              is_repeat := ev.autorepeat.toNat } : KeyEvent)]).length := by
      simp only [List.length_append, List.length_singleton]
      omega
    rw [hup _ ts2 hfull2 (Function.update_same _ _ _)]
    refine ⟨by simp, Function.update_same _ _ _, by simp, ?_⟩
    dsimp only
    rw [Function.update_same]

/-- Witness for C7: keycode 56 (a real modifier keycode, below 256) in the
untracked initial state satisfies all hypotheses, and the theorem gives
the key_down-then-key_up alternation on both macOS variants. -/
theorem c7_amended_witness :
    ((56 : Nat) < 256 ∧ GuiMacos.init.modifier_key_down 56 = false ∧
      GuiMacos.init.events.length + 2 ≤ MAX_EVENTS) ∧
    ((GuiMacos.record_flags_changed
        (GuiMacos.record_flags_changed GuiMacos.init
          { keyCode := 56, modifierFlags := ⟨false, false, false, false⟩,
            isARepeat := false, timestamp_ms := 0 } 0)
        { keyCode := 56, modifierFlags := ⟨false, false, false, false⟩,
          isARepeat := false, timestamp_ms := 0 } 0).events.map
      KeyEvent.event_type =
      GuiMacos.init.events.map KeyEvent.event_type ++
        ["key_down", "key_up"]) ∧
    ((0 : Int) ≤ 56 ∧ (56 : Int) < 256 ∧
      TerminalMacos.tap_init.modifier_key_down 56 = false ∧
      TerminalMacos.tap_init.events.length + 2 ≤ MAX_EVENTS) ∧
    ((TerminalMacos.event_callback
        (TerminalMacos.event_callback TerminalMacos.tap_init
          TerminalMacos.CGEventType.flagsChanged
          { keycode := 56, flags := ⟨false, false, false, false⟩,
            autorepeat := 0, timestamp_ms := 0 } 0)
        TerminalMacos.CGEventType.flagsChanged
        { keycode := 56, flags := ⟨false, false, false, false⟩,
          autorepeat := 0, timestamp_ms := 0 } 0).events.map
      KeyEvent.event_type =
      TerminalMacos.tap_init.events.map KeyEvent.event_type ++
        ["key_down", "key_up"]) := by
  refine ⟨⟨by decide, rfl, by decide⟩, ?_,
    ⟨by decide, by decide, rfl, by decide⟩, ?_⟩
  · exact (c7_amended.1 GuiMacos.init
      { keyCode := 56, modifierFlags := ⟨false, false, false, false⟩,
        isARepeat := false, timestamp_ms := 0 } 0 0 (by decide) rfl
      (by decide)).2.2.1
  · exact (c7_amended.2 TerminalMacos.tap_init
      { keycode := 56, flags := ⟨false, false, false, false⟩,
        autorepeat := 0, timestamp_ms := 0 } 0 0 (by decide) (by decide) rfl
      (by decide)).2.2.1

/-- Claim C8, counterexample: the claim says every data row has exactly 9
comma-separated fields, but on the Windows hook path a key whose character
probe translates to the comma character (vk 0xBC, `ToUnicode` yielding
code 44) is recorded with `character = ","`, and its CSV row then splits
into 10 comma-separated fields. -/
theorem c8_counterexample :
    (TerminalWindows.process
        [{ nCode := 0, wParam := TerminalWindows.WMessage.keydown,
           kb := { vkCode := 188, scanCode := 51, flags := 0, time := 0 },
           probe := some 44,
           ks := { shift := false, control := false, menu := false,
                   win := false }, ts := 0 }]).map
      (fun e => (splitOnComma (csv_row e).data).length) = [10] := by decide

theorem row_fields_beq (e : KeyEvent) (h : record_comma_free e) :
    ((splitOnComma (csv_row e).data).length == 9) = true :=
  beq_iff_eq.mpr (csv_row_fields e h)

namespace GuiMacos

theorem gm_process_rows (inputs : List NSInput) :
    ((process inputs).events.all
      (fun e => (splitOnComma (csv_row e).data).length == 9)) = true := by
  unfold process
  refine foldl_invariant dispatch
    (fun st => (st.events.all
      (fun e => (splitOnComma (csv_row e).data).length == 9)) = true)
    ?_ inputs init rfl
  intro s i h
  rcases dispatch_cases s i with h1 | ⟨r, h1, _, h2, h3, h4⟩
  · rw [h1]; exact h
  · rw [h1, List.all_append, h]
    simp only [Bool.true_and, List.all_cons, List.all_nil, Bool.and_true]
    have het : ',' ∉ r.event_type.data := by
      rcases h2 with h2 | h2 <;> rw [h2] <;> decide
    have hch : ',' ∉ r.character.data := by
      rw [h3]
      exact strtake_comma_free _ _ (keycode_to_char_comma_free _)
    have hmo : ',' ∉ r.modifiers.data := by
      rw [h4]
      exact gm_modifier_string_comma_free _
    exact row_fields_beq r ⟨het, hch, hmo⟩

end GuiMacos

namespace TerminalWindows

theorem tw_process_rows (inputs : List HookInput) :
    ((process inputs).all
      (fun e => ((splitOnComma (csv_row e).data).length == 9) ||
        decide (',' ∈ e.character.data))) = true := by
  unfold process
  refine foldl_invariant _
    (fun st => (st.all
      (fun e => ((splitOnComma (csv_row e).data).length == 9) ||
        decide (',' ∈ e.character.data))) = true)
    ?_ inputs [] rfl
  intro s i h
  rcases keyboard_hook_cases s i.nCode i.wParam i.kb i.probe i.ks i.ts with
    h1 | ⟨r, h1, _, _, h2, h3, h4⟩
  · rw [h1]; exact h
  · rw [h1, List.all_append, h]
    simp only [Bool.true_and, List.all_cons, List.all_nil, Bool.and_true]
    by_cases hc : ',' ∈ r.character.data
    · rw [decide_eq_true hc, Bool.or_true]
    · have het : ',' ∉ r.event_type.data := by
        rcases h2 with h2 | h2 <;> rw [h2] <;> decide
      have hmo : ',' ∉ r.modifiers.data := by
        rw [h4]
        exact tw_modifier_string_comma_free _
      rw [row_fields_beq r ⟨het, hc, hmo⟩, Bool.true_or]

end TerminalWindows

/-- Claim C8, amended: for every session the CSV output has exactly N + 6
lines (5 metadata comment lines, 1 header, one row per accepted record in
acceptance order).  Every data row of the macOS GUI pipeline has exactly 9
comma-separated fields; on the Windows hook pipeline the same holds for
every record except one whose rendered character itself contains a comma
(the comma key under the character probe), whose row gains extra fields. -/
theorem c8_amended :
    (∀ (md : SessionMetadata) (inputs : List TerminalWindows.HookInput),
      (write_csv_lines md (TerminalWindows.process inputs)).length =
        (TerminalWindows.process inputs).length + 6) ∧
    (∀ (md : SessionMetadata) (inputs : List GuiMacos.NSInput),
      (write_csv_lines md (GuiMacos.process inputs).events).length =
        (GuiMacos.process inputs).events.length + 6) ∧
    (∀ inputs : List GuiMacos.NSInput,
      ((GuiMacos.process inputs).events.all
        (fun e => (splitOnComma (csv_row e).data).length == 9)) = true) ∧
    (∀ inputs : List TerminalWindows.HookInput,
      ((TerminalWindows.process inputs).all
        (fun e => ((splitOnComma (csv_row e).data).length == 9) ||
          decide (',' ∈ e.character.data))) = true) :=
  ⟨fun md _ => write_csv_lines_length md _,
   fun md _ => write_csv_lines_length md _,
   GuiMacos.gm_process_rows, TerminalWindows.tw_process_rows⟩
